import Mathlib

/-!
Verification of the `transactions` repository's domain core
(`src/domain/account.rs` and `src/domain/transaction.rs`).

Shallow embedding conventions:
- `rust_decimal::Decimal` amounts are modelled as `ℚ` (exact decimal
  arithmetic under `+`/`-`, which are the only operations the code uses).
- `ClientID` (`u16`) and `TransactionID` (`u32`) are modelled as `ℕ`;
  no arithmetic is ever performed on them, only equality tests.
- The `HashMap<TransactionID, Transaction>` field `disputed_transactions`
  is modelled as an association list where `insert` conses a new binding
  in front (lookup returns the newest binding for a key, matching the
  overwrite semantics of `HashMap::insert`; the code never iterates or
  removes, so only `get`/`insert` behaviour matters).
- A Rust method on `&mut self` becomes a function returning the new state.
  `Result::Err` is modelled by `TxResult.err` carrying the message and the
  state of `self` at the moment of the early return; `.unwrap()` on an
  `Err` (a Rust panic) is modelled by `TxResult.panic`.
-/

/-- `TransactionType` from `src/domain/transaction.rs`. -/
inductive TransactionType where
  | withdraw (amount : ℚ)
  | deposit (amount : ℚ)
  | dispute
  | resolve
  | chargeBack
deriving DecidableEq

/-- `Transaction` from `src/domain/transaction.rs`: client id, kind, tx id. -/
structure Transaction where
  client : ℕ
  kind : TransactionType
  tx : ℕ
deriving DecidableEq

/-- `Snapshot` from `src/domain/account.rs`. -/
structure Snapshot where
  client : ℕ
  total : ℚ
  held : ℚ
  locked : Bool
deriving DecidableEq

/-- `Snapshot::new`: zeroed balance, unlocked. -/
def Snapshot.new (client : ℕ) : Snapshot :=
  { client := client, total := 0, held := 0, locked := false }

/-- `Snapshot::get_available`: `total - held`. -/
def Snapshot.get_available (s : Snapshot) : ℚ := s.total - s.held

/-- `Account` from `src/domain/account.rs`. -/
structure Account where
  client : ℕ
  transactions : List Transaction
  disputed_transactions : List (ℕ × Transaction)
  snapshot : Snapshot
deriving DecidableEq

/-- `Account::new`. -/
def Account.new (client : ℕ) : Account :=
  { client := client, transactions := [], disputed_transactions := [],
    snapshot := Snapshot.new client }

/-- `Account::take_snapshot`: `self.snapshot.clone()`. -/
def Account.take_snapshot (acc : Account) : Snapshot := acc.snapshot

/-- `HashMap::get` on the association-list model: newest binding wins. -/
def lookupTx (m : List (ℕ × Transaction)) (k : ℕ) : Option Transaction :=
  match m.find? (fun pr => pr.1 == k) with
  | some pr => some pr.2
  | none => none

/-- `HashMap::insert` on the association-list model. -/
def insertTx (m : List (ℕ × Transaction)) (k : ℕ) (v : Transaction) :
    List (ℕ × Transaction) :=
  (k, v) :: m

/-- `Account::get_disputed_transaction`: look the tx id up in
`disputed_transactions`, cloning the stored transaction. -/
def Account.get_disputed_transaction (acc : Account) (t : Transaction) :
    Option Transaction :=
  match lookupTx acc.disputed_transactions t.tx with
  | some disp => some disp
  | none => none

/-- Outcome of `Account::add_transaction` (`Result<(), &str>` on `&mut self`):
`ok`/`err` carry the state of the account when the method returns; `panic`
models an `.unwrap()` on an `Err` inside the method body. -/
inductive TxResult where
  | ok (acc : Account)
  | err (msg : String) (acc : Account)
  | panic
deriving DecidableEq

/-- `Account::apply_changeback`: `total -= amount; held -= amount;
locked = true`, where `amount` is unwrapped from the disputed transaction
(non-monetary kinds panic via `.unwrap()`). -/
def Account.apply_changeback (acc : Account) (disputed : Transaction) : TxResult :=
  match disputed.kind with
  | .deposit amount =>
      .ok { acc with snapshot := { acc.snapshot with
              total := acc.snapshot.total - amount,
              held := acc.snapshot.held - amount,
              locked := true } }
  | .withdraw amount =>
      .ok { acc with snapshot := { acc.snapshot with
              total := acc.snapshot.total - amount,
              held := acc.snapshot.held - amount,
              locked := true } }
  | _ => .panic

/-- `Account::resolve`: `held -= amount` for a disputed Deposit/Withdraw
(the caller `.unwrap()`s, so a non-monetary kind is a panic). -/
def Account.resolve (acc : Account) (disputed : Transaction) : TxResult :=
  match disputed.kind with
  | .deposit amount =>
      .ok { acc with snapshot := { acc.snapshot with
              held := acc.snapshot.held - amount } }
  | .withdraw amount =>
      .ok { acc with snapshot := { acc.snapshot with
              held := acc.snapshot.held - amount } }
  | _ => .panic

/-- One iteration of the `for r in self.transactions.iter()` loop inside
`Account::open_dispute`: skip `r == &t` and `r.tx != t.tx`; a matching
Deposit adds to `held` and records the dispute, a matching Withdraw adds to
`total` and `held` and records the dispute; other kinds are skipped. -/
def disputeStep (t : Transaction) (acc : Account) (r : Transaction) : Account :=
  if r = t ∨ r.tx ≠ t.tx then acc
  else
    match r.kind with
    | .deposit amount =>
        { acc with
          snapshot := { acc.snapshot with held := acc.snapshot.held + amount },
          disputed_transactions := insertTx acc.disputed_transactions t.tx r }
    | .withdraw amount =>
        { acc with
          snapshot := { acc.snapshot with
            total := acc.snapshot.total + amount,
            held := acc.snapshot.held + amount },
          disputed_transactions := insertTx acc.disputed_transactions t.tx r }
    | _ => acc

/-- `Account::open_dispute`: if a dispute is already recorded for `t.tx`
do nothing, else scan the whole transaction history (which at call time
already contains `t` itself). -/
def Account.open_dispute (acc : Account) (t : Transaction) : Account :=
  match acc.get_disputed_transaction t with
  | some _ => acc
  | none => acc.transactions.foldl (disputeStep t) acc

/-- `self.transactions.push(t.clone())`. -/
def pushTx (acc : Account) (t : Transaction) : Account :=
  { acc with transactions := acc.transactions ++ [t] }

/-- `Account::add_transaction`: reject a mismatching client, push the
transaction to the history, then dispatch on its kind exactly as the
`match t.kind` in the source. -/
def Account.add_transaction (acc : Account) (t : Transaction) : TxResult :=
  if acc.client ≠ t.client then
    .err "Invalid transaction client for this account" acc
  else
    let acc1 := pushTx acc t
    match t.kind with
    | .deposit amount =>
        .ok { acc1 with snapshot := { acc1.snapshot with
                total := acc1.snapshot.total + amount } }
    | .withdraw amount =>
        .ok { acc1 with snapshot := { acc1.snapshot with
                total := acc1.snapshot.total - amount } }
    | .dispute => .ok (acc1.open_dispute t)
    | .chargeBack =>
        if acc1.snapshot.locked then .ok acc1
        else
          match acc1.get_disputed_transaction t with
          | some disp => acc1.apply_changeback disp
          | none => .ok acc1
    | .resolve =>
        match acc1.get_disputed_transaction t with
        | some disp => acc1.resolve disp
        | none => .ok acc1

/-- The state an account is left in after one `add_transaction` call:
on `Ok`/`Err` the (possibly mutated) `self` persists; a panic would abort
the process, so no sequence reaching it is ever executed further — kept as
the untouched state to make the fold total. -/
def txStep (acc : Account) (t : Transaction) : Account :=
  match acc.add_transaction t with
  | .ok a => a
  | .err _ a => a
  | .panic => acc

/-- Run a whole sequence of `add_transaction` calls against a fresh
account: the reachable states of the claims. -/
def runTransactions (client : ℕ) (ts : List Transaction) : Account :=
  ts.foldl txStep (Account.new client)

/-- Outcome of one `addToAccounts` routing pass over the account vector. -/
inductive AccsResult where
  | ok (accounts : List Account)
  | err (accounts : List Account)
  | panic
deriving DecidableEq

/-- The body of `Portfolio::add_transaction`: scan `accounts` for the first
account with a matching client and delegate (the `?` operator propagates an
`Err`); if none matches, create a fresh account, apply the transaction with
`.unwrap()` (a panic on `Err`), and push the new account at the end. -/
def addToAccounts : List Account → Transaction → AccsResult
  | [], t =>
    match (Account.new t.client).add_transaction t with
    | .ok a => .ok [a]
    | .err _ _ => .panic
    | .panic => .panic
  | a :: rest, t =>
    if a.client = t.client then
      match a.add_transaction t with
      | .ok a1 => .ok (a1 :: rest)
      | .err _ a1 => .err (a1 :: rest)
      | .panic => .panic
    else
      match addToAccounts rest t with
      | .ok l => .ok (a :: l)
      | .err l => .err (a :: l)
      | .panic => .panic

/-- `Portfolio` from `src/domain/account.rs`: the account vector and the
`_pos : i32` emission cursor. -/
structure Portfolio where
  accounts : List Account
  pos : ℤ
deriving DecidableEq

/-- `Portfolio::new`. -/
def Portfolio.new : Portfolio := { accounts := [], pos := 0 }

/-- Outcome of `Portfolio::add_transaction` (`Result<(), Box<dyn Error>>`). -/
inductive PortAdd where
  | ok (p : Portfolio)
  | err (p : Portfolio)
  | panic
deriving DecidableEq

/-- `Portfolio::add_transaction`: route to `addToAccounts`; the cursor is
untouched. -/
def Portfolio.add_transaction (p : Portfolio) (t : Transaction) : PortAdd :=
  match addToAccounts p.accounts t with
  | .ok l => .ok { accounts := l, pos := p.pos }
  | .err l => .err { accounts := l, pos := p.pos }
  | .panic => .panic

/-- Wrap-around of the `i32` cursor increment `self._pos += 1`. -/
def i32wrap (z : ℤ) : ℤ := (z + 2 ^ 31) % 2 ^ 32 - 2 ^ 31

/-- The `self._pos as usize` cast: an `i32` reinterpreted as a 64-bit
unsigned index (a negative cursor becomes a huge index). -/
def usizeOfI32 (z : ℤ) : ℕ := (z % 2 ^ 64).toNat

/-- `Portfolio::get_snapshot_line`: read the account at the cursor; on a
hit, advance the cursor and emit its snapshot, otherwise return `None`
and leave the portfolio untouched. -/
def Portfolio.get_snapshot_line (p : Portfolio) : Option Snapshot × Portfolio :=
  match p.accounts.get? (usizeOfI32 p.pos) with
  | some account =>
      (some account.take_snapshot,
       { accounts := p.accounts, pos := i32wrap (p.pos + 1) })
  | none => (none, p)

/-- The portfolio state after one `Portfolio::add_transaction` call (an
`Err` is returned to the caller with the mutated state kept; a panic would
abort the run). -/
def portStep (p : Portfolio) (t : Transaction) : Portfolio :=
  match p.add_transaction t with
  | .ok q => q
  | .err q => q
  | .panic => p

/-- Feed a whole transaction stream into a fresh portfolio, as
`reader::get_content` does. -/
def portfolioRun (ts : List Transaction) : Portfolio :=
  ts.foldl portStep Portfolio.new

/-- Repeatedly call `get_snapshot_line`, `n` times, collecting the emitted
snapshots (the loop in `lib.rs::run` stops at the first `None`). -/
def emit : Portfolio → ℕ → List Snapshot × Portfolio
  | p, 0 => ([], p)
  | p, n + 1 =>
    match p.get_snapshot_line with
    | (some s, p1) =>
        let r := emit p1 n
        (s :: r.1, r.2)
    | (none, p1) => ([], p1)

/-- The clients of a transaction stream in first-seen order: the order in
which `Portfolio::add_transaction` pushes fresh accounts. -/
def firstSeen (ts : List Transaction) : List ℕ :=
  ts.foldl (fun cl t => if t.client ∈ cl then cl else cl ++ [t.client]) []

/-- Monetary transaction kinds (the only kinds `open_dispute` records). -/
def isMon : TransactionType → Bool
  | .deposit _ => true
  | .withdraw _ => true
  | _ => false

/-- Invariant of every reachable account: the dispute ledger only stores
monetary transactions, so the `.unwrap()`s in the Resolve/ChargeBack arms
never panic. -/
def MonMap (acc : Account) : Prop :=
  ∀ pr ∈ acc.disputed_transactions, isMon pr.2.kind = true

/-- Override the locked flag of an account's balance, leaving every other
field alone (used to express that only the ChargeBack arm reads it). -/
def setLocked (b : Bool) (acc : Account) : Account :=
  { acc with snapshot := { acc.snapshot with locked := b } }

/-- Push `setLocked` through a `TxResult`. -/
def mapLocked (b : Bool) : TxResult → TxResult
  | .ok a => .ok (setLocked b a)
  | .err m a => .err m (setLocked b a)
  | .panic => .panic

/- Concrete transactions used by counterexamples and witnesses. -/

/-- Deposit of 10 with tx id 1 for client 2. -/
def dep10 : Transaction := ⟨2, .deposit 10, 1⟩

/-- Dispute referencing tx id 1 for client 2. -/
def disp1 : Transaction := ⟨2, .dispute, 1⟩

/-- Resolve referencing tx id 1 for client 2. -/
def res1 : Transaction := ⟨2, .resolve, 1⟩

/-- ChargeBack referencing tx id 1 for client 2. -/
def cb1 : Transaction := ⟨2, .chargeBack, 1⟩

/-- Deposit of 62.555 with tx id 1 for client 2 (spec §8 example). -/
def dep62 : Transaction := ⟨2, .deposit (62555 / 1000 : ℚ), 1⟩

/-- Withdraw of 30.0000 with tx id 2 for client 2 (spec §8 example). -/
def wd30 : Transaction := ⟨2, .withdraw 30, 2⟩

/-- Dispute referencing tx id 2 for client 2. -/
def disp2 : Transaction := ⟨2, .dispute, 2⟩

/-- ChargeBack referencing tx id 2 for client 2. -/
def cb2 : Transaction := ⟨2, .chargeBack, 2⟩

/-- Deposit of 5 with tx id 1 for client 1 (portfolio example). -/
def depP : Transaction := ⟨1, .deposit 5, 1⟩

/-- Deposit of 7 with tx id 1 for client 2 (dispute-opening witness). -/
def wDep : Transaction := ⟨2, .deposit 7, 1⟩

/-- Dispute referencing tx id 1 for client 2 (dispute-opening witness). -/
def wDisp : Transaction := ⟨2, .dispute, 1⟩

/-- An account of client 2 holding one deposit of 7, no open dispute. -/
def wAcc : Account :=
  { client := 2, transactions := [wDep], disputed_transactions := [],
    snapshot := { client := 2, total := 7, held := 0, locked := false } }

/-- A locked reachable account: Deposit(10) tx=1, Dispute(1), ChargeBack(1). -/
def lockedAcc : Account := runTransactions 2 [dep10, disp1, cb1]

/-- A deposit of 5 with fresh tx id 9 for client 2 (locked-account witness). -/
def tDep5 : Transaction := ⟨2, .deposit 5, 9⟩

/-- C1: the dispute ledger is never cleaned up on Resolve, so a duplicate
Resolve for the same tx id fires the Dispute→Resolve effect a second time:
after Deposit(10) tx=1, Dispute(1), Resolve(1) the held amount is 0, but a
second identical Resolve(1) drives it to -10 instead of leaving the balance
unchanged. -/
theorem c1_duplicate_resolve_fires_twice :
    (runTransactions 2 [dep10, disp1, res1]).snapshot.held = 0 ∧
    (runTransactions 2 [dep10, disp1, res1]).snapshot.total = 10 ∧
    (runTransactions 2 [dep10, disp1, res1, res1]).snapshot.held = -10 ∧
    (runTransactions 2 [dep10, disp1, res1, res1]).snapshot.total = 10 := by
  simp +decide only [runTransactions, txStep, Account.add_transaction, pushTx,
    Account.open_dispute, disputeStep, Account.get_disputed_transaction,
    lookupTx, insertTx, Account.resolve, Account.apply_changeback,
    Account.new, Snapshot.new, dep10, disp1, res1, cb1, dep62, wd30, disp2,
    cb2, List.foldl, List.find?]
  norm_num

/-- C2: the reachable state after Deposit(10) tx=1, Dispute(1), Resolve(1),
Resolve(1) has a negative held amount, refuting the invariant
`held >= 0` on the code as written. -/
theorem c2_held_goes_negative :
    (runTransactions 2 [dep10, disp1, res1, res1]).snapshot.held < 0 := by
  simp +decide only [runTransactions, txStep, Account.add_transaction, pushTx,
    Account.open_dispute, disputeStep, Account.get_disputed_transaction,
    lookupTx, insertTx, Account.resolve, Account.apply_changeback,
    Account.new, Snapshot.new, dep10, disp1, res1, cb1, dep62, wd30, disp2,
    cb2, List.foldl, List.find?]
  norm_num

/-- C3: a ChargeBack does not consume the dispute it fires on: after
Deposit(10) tx=1, Dispute(1), ChargeBack(1) the account is locked with
held 0, yet a subsequent Resolve(1) still finds the dispute in the ledger
and drives held to -10 instead of being a no-op. -/
theorem c3_resolve_after_chargeback_not_noop :
    (runTransactions 2 [dep10, disp1, cb1]).snapshot.locked = true ∧
    (runTransactions 2 [dep10, disp1, cb1]).snapshot.held = 0 ∧
    (runTransactions 2 [dep10, disp1, cb1, res1]).snapshot.held = -10 := by
  simp +decide only [runTransactions, txStep, Account.add_transaction, pushTx,
    Account.open_dispute, disputeStep, Account.get_disputed_transaction,
    lookupTx, insertTx, Account.resolve, Account.apply_changeback,
    Account.new, Snapshot.new, dep10, disp1, res1, cb1, dep62, wd30, disp2,
    cb2, List.foldl, List.find?]
  norm_num

/-- C4: balance identity — for every account reachable by a sequence of
`add_transaction` calls from the zeroed balance, the snapshot's
`get_available` accessor reports exactly `total - held`. -/
theorem c4_balance_identity (client : ℕ) (ts : List Transaction) :
    (runTransactions client ts).take_snapshot.get_available =
      (runTransactions client ts).take_snapshot.total -
        (runTransactions client ts).take_snapshot.held := rfl

/-- C6 counterexample: a Dispute arriving before its target Deposit does
not take effect when the target is later processed — after Dispute(1) then
Deposit(10) tx=1 the held amount is 0, the total is 10, and no dispute is
recorded for tx 1, so the earlier Dispute's hold never fires. -/
theorem c6_early_dispute_never_takes_effect :
    (runTransactions 2 [disp1, dep10]).snapshot.held = 0 ∧
    (runTransactions 2 [disp1, dep10]).snapshot.total = 10 ∧
    lookupTx (runTransactions 2 [disp1, dep10]).disputed_transactions 1 =
      none := by
  simp +decide only [runTransactions, txStep, Account.add_transaction, pushTx,
    Account.open_dispute, disputeStep, Account.get_disputed_transaction,
    lookupTx, insertTx, Account.resolve, Account.apply_changeback,
    Account.new, Snapshot.new, dep10, disp1, res1, cb1, dep62, wd30, disp2,
    cb2, List.foldl, List.find?]
  norm_num

/-- C7 counterexample: on the spec's worked example Deposit(62.555),
Withdraw(30.0000), Dispute, ChargeBack, ChargeBack the final total is
32.555, not 0 as the claim states (held is 0 as claimed). -/
theorem c7_final_total_not_zero :
    (runTransactions 2 [dep62, wd30, disp2, cb2, cb2]).snapshot.total ≠ 0 ∧
    (runTransactions 2 [dep62, wd30, disp2, cb2, cb2]).snapshot.held = 0 := by
  simp +decide only [runTransactions, txStep, Account.add_transaction, pushTx,
    Account.open_dispute, disputeStep, Account.get_disputed_transaction,
    lookupTx, insertTx, Account.resolve, Account.apply_changeback,
    Account.new, Snapshot.new, dep10, disp1, res1, cb1, dep62, wd30, disp2,
    cb2, List.foldl, List.find?]
  norm_num

/-- C7 amended: on Deposit(62.555), Withdraw(30.0000), Dispute(2),
ChargeBack(2), ChargeBack(2) the dispute leaves total 62.555 and held 30,
the first chargeback reduces both by 30 (total 32.555, held 0) and locks
the account, and the second chargeback changes nothing beyond being
appended to the history. -/
theorem c7_double_chargeback_trace :
    (runTransactions 2 [dep62, wd30, disp2]).snapshot.total =
      62555 / 1000 ∧
    (runTransactions 2 [dep62, wd30, disp2]).snapshot.held = 30 ∧
    (runTransactions 2 [dep62, wd30, disp2, cb2]).snapshot.total =
      62555 / 1000 - 30 ∧
    (runTransactions 2 [dep62, wd30, disp2, cb2]).snapshot.held = 0 ∧
    (runTransactions 2 [dep62, wd30, disp2, cb2]).snapshot.locked = true ∧
    (runTransactions 2 [dep62, wd30, disp2, cb2]).add_transaction cb2 =
      .ok (pushTx (runTransactions 2 [dep62, wd30, disp2, cb2]) cb2) := by
  simp +decide only [runTransactions, txStep, Account.add_transaction, pushTx,
    Account.open_dispute, disputeStep, Account.get_disputed_transaction,
    lookupTx, insertTx, Account.resolve, Account.apply_changeback,
    Account.new, Snapshot.new, dep10, disp1, res1, cb1, dep62, wd30, disp2,
    cb2, List.foldl, List.find?]
  norm_num

/-- C8 counterexample: snapshot emission is a consumed stream, not a pure
projection — on a portfolio with one known client the first
`get_snapshot_line` yields a snapshot, but re-deriving from the resulting
portfolio yields `none`: repeated calls do not return the same set. -/
theorem c8_emission_is_single_pass :
    ((portfolioRun [depP]).get_snapshot_line).1.isSome = true ∧
    (((portfolioRun [depP]).get_snapshot_line).2.get_snapshot_line).1 =
      none := by
  simp +decide only [portfolioRun, portStep, Portfolio.add_transaction,
    addToAccounts, Portfolio.new, Portfolio.get_snapshot_line, usizeOfI32,
    i32wrap, Account.add_transaction, pushTx, Account.new, Snapshot.new,
    Account.take_snapshot, depP, List.foldl, List.get?]

/-- Elements skipped by the `open_dispute` scan — the dispute transaction
itself, a different tx id, or a non-monetary kind — leave the account
untouched. -/
theorem disputeStep_skip (t r : Transaction) (a : Account)
    (h : r = t ∨ r.tx ≠ t.tx ∨ isMon r.kind = false) :
    disputeStep t a r = a := by
  rcases h with h | h | h
  · simp [disputeStep, h]
  · simp [disputeStep, h]
  · unfold disputeStep
    by_cases hg : r = t ∨ r.tx ≠ t.tx
    · simp [hg]
    · simp only [if_neg hg]
      cases hk : r.kind <;> simp [hk, isMon] at h ⊢

/-- The `open_dispute` scan is the identity on a history with no
matching monetary transaction. -/
theorem foldl_disputeStep_skip (t : Transaction) :
    ∀ (l : List Transaction) (a : Account),
      (∀ r ∈ l, r = t ∨ r.tx ≠ t.tx ∨ isMon r.kind = false) →
      l.foldl (disputeStep t) a = a := by
  intro l
  induction l with
  | nil => intro a _; rfl
  | cons r l ih =>
    intro a h
    rw [List.foldl_cons, disputeStep_skip t r a (h r (by simp))]
    exact ih a fun x hx => h x (by simp [hx])

/-- The `open_dispute` scan over a history with exactly one matching
monetary transaction reduces to the effect of that single match. -/
theorem foldl_disputeStep_single (t d : Transaction) (l1 l2 : List Transaction)
    (a : Account)
    (h1 : ∀ r ∈ l1, r = t ∨ r.tx ≠ t.tx ∨ isMon r.kind = false)
    (h2 : ∀ r ∈ l2, r = t ∨ r.tx ≠ t.tx ∨ isMon r.kind = false) :
    (l1 ++ d :: l2).foldl (disputeStep t) a = disputeStep t a d := by
  rw [List.foldl_append, foldl_disputeStep_skip t l1 a h1, List.foldl_cons,
    foldl_disputeStep_skip t l2 _ h2]

/-- `get_disputed_transaction` is exactly the ledger lookup. -/
theorem get_disputed_eq_lookup (acc : Account) (t : Transaction) :
    acc.get_disputed_transaction t = lookupTx acc.disputed_transactions t.tx := by
  unfold Account.get_disputed_transaction
  cases lookupTx acc.disputed_transactions t.tx <;> rfl

/-- On a matching client, `add_transaction` of a Dispute reduces to the
`open_dispute` call on the pushed history. -/
theorem add_transaction_dispute_eq (acc : Account) (t : Transaction)
    (hc : t.client = acc.client) (hk : t.kind = .dispute) :
    acc.add_transaction t = .ok ((pushTx acc t).open_dispute t) := by
  have hne : ¬ acc.client ≠ t.client := by simp [hc]
  simp only [Account.add_transaction, hk, if_neg hne]

/-- On a matching client, `add_transaction` of a Deposit adds the amount to
`total` and touches nothing else beyond the history push. -/
theorem add_transaction_deposit_eq (acc : Account) (t : Transaction) (q : ℚ)
    (hc : t.client = acc.client) (hk : t.kind = .deposit q) :
    acc.add_transaction t = .ok
      { client := acc.client,
        transactions := acc.transactions ++ [t],
        disputed_transactions := acc.disputed_transactions,
        snapshot := { acc.snapshot with total := acc.snapshot.total + q } } := by
  have hne : ¬ acc.client ≠ t.client := by simp [hc]
  simp only [Account.add_transaction, hk, if_neg hne]
  rfl

/-- On a matching client, `add_transaction` of a Withdraw subtracts the
amount from `total` and touches nothing else beyond the history push. -/
theorem add_transaction_withdraw_eq (acc : Account) (t : Transaction) (q : ℚ)
    (hc : t.client = acc.client) (hk : t.kind = .withdraw q) :
    acc.add_transaction t = .ok
      { client := acc.client,
        transactions := acc.transactions ++ [t],
        disputed_transactions := acc.disputed_transactions,
        snapshot := { acc.snapshot with total := acc.snapshot.total - q } } := by
  have hne : ¬ acc.client ≠ t.client := by simp [hc]
  simp only [Account.add_transaction, hk, if_neg hne]
  rfl

/-- A Dispute whose tx id already has a ledger entry is a pure history
append. -/
theorem add_transaction_dispute_already_open (acc : Account) (t d : Transaction)
    (hc : t.client = acc.client) (hk : t.kind = .dispute)
    (hd : acc.get_disputed_transaction t = some d) :
    acc.add_transaction t = .ok (pushTx acc t) := by
  rw [add_transaction_dispute_eq acc t hc hk]
  unfold Account.open_dispute
  have hd1 : (pushTx acc t).get_disputed_transaction t = some d := hd
  rw [hd1]

/-- A Dispute with no ledger entry and no matching monetary transaction in
the history is a pure history append. -/
theorem add_transaction_dispute_noop (acc : Account) (t : Transaction)
    (hc : t.client = acc.client) (hk : t.kind = .dispute)
    (hopen : acc.get_disputed_transaction t = none)
    (hno : ∀ r ∈ acc.transactions, r.tx = t.tx → isMon r.kind = false) :
    acc.add_transaction t = .ok (pushTx acc t) := by
  rw [add_transaction_dispute_eq acc t hc hk]
  unfold Account.open_dispute
  have hopen1 : (pushTx acc t).get_disputed_transaction t = none := hopen
  rw [hopen1]
  have hskip : ∀ r ∈ (pushTx acc t).transactions,
      r = t ∨ r.tx ≠ t.tx ∨ isMon r.kind = false := by
    intro r hr
    rcases List.mem_append.mp hr with hr | hr
    · by_cases htx : r.tx = t.tx
      · exact Or.inr (Or.inr (hno r hr htx))
      · exact Or.inr (Or.inl htx)
    · exact Or.inl (List.mem_singleton.mp hr)
  rw [foldl_disputeStep_skip t (pushTx acc t).transactions (pushTx acc t) hskip]

/-- Characterization of dispute opening under the guard the code actually
uses (a ledger entry for the tx id, which — since entries are never
removed — is not the same as an open dispute). For a Dispute on a matching
client: if the ledger already holds an entry for its tx id the call is a
pure history append; if no monetary transaction in the history carries its
tx id the call is a pure history append; if the unique monetary match is a
Deposit of `q`, then `held` grows by `q`, `total` is unchanged, and the
dispute is recorded; if it is a Withdraw of `q`, then both `held` and
`total` grow by `q`, so `available` is unchanged. -/
theorem open_dispute_guard_cases (acc : Account) (t : Transaction)
    (hc : t.client = acc.client) (hk : t.kind = .dispute) :
    ((∃ d, acc.get_disputed_transaction t = some d) →
      acc.add_transaction t = .ok (pushTx acc t)) ∧
    (acc.get_disputed_transaction t = none →
      (∀ r ∈ acc.transactions, r.tx = t.tx → isMon r.kind = false) →
      acc.add_transaction t = .ok (pushTx acc t)) ∧
    (∀ l1 l2 d q, acc.get_disputed_transaction t = none →
      acc.transactions = l1 ++ d :: l2 → d.tx = t.tx → d.kind = .deposit q →
      (∀ r ∈ l1 ++ l2, r.tx = t.tx → isMon r.kind = false) →
      acc.add_transaction t = .ok
        { client := acc.client,
          transactions := acc.transactions ++ [t],
          disputed_transactions := insertTx acc.disputed_transactions t.tx d,
          snapshot := { acc.snapshot with
            held := acc.snapshot.held + q } }) ∧
    (∀ l1 l2 d q, acc.get_disputed_transaction t = none →
      acc.transactions = l1 ++ d :: l2 → d.tx = t.tx → d.kind = .withdraw q →
      (∀ r ∈ l1 ++ l2, r.tx = t.tx → isMon r.kind = false) →
      acc.add_transaction t = .ok
        { client := acc.client,
          transactions := acc.transactions ++ [t],
          disputed_transactions := insertTx acc.disputed_transactions t.tx d,
          snapshot := { acc.snapshot with
            total := acc.snapshot.total + q,
            held := acc.snapshot.held + q } }) := by
  refine ⟨fun ⟨d, hd⟩ => add_transaction_dispute_already_open acc t d hc hk hd,
    fun hopen hno => add_transaction_dispute_noop acc t hc hk hopen hno,
    fun l1 l2 d q hopen hhist hdtx hdk hno => ?_,
    fun l1 l2 d q hopen hhist hdtx hdk hno => ?_⟩ <;>
  · rw [add_transaction_dispute_eq acc t hc hk]
    unfold Account.open_dispute
    have hopen1 : (pushTx acc t).get_disputed_transaction t = none := hopen
    rw [hopen1]
    have hdt : d ≠ t := by
      intro he
      rw [he, hk] at hdk
      cases hdk
    have hsplit : (pushTx acc t).transactions = l1 ++ d :: (l2 ++ [t]) := by
      show acc.transactions ++ [t] = _
      rw [hhist, List.append_assoc, List.cons_append]
    have h1 : ∀ r ∈ l1, r = t ∨ r.tx ≠ t.tx ∨ isMon r.kind = false := by
      intro r hr
      by_cases htx : r.tx = t.tx
      · exact Or.inr (Or.inr (hno r (List.mem_append.mpr (Or.inl hr)) htx))
      · exact Or.inr (Or.inl htx)
    have h2 : ∀ r ∈ l2 ++ [t], r = t ∨ r.tx ≠ t.tx ∨ isMon r.kind = false := by
      intro r hr
      rcases List.mem_append.mp hr with hr | hr
      · by_cases htx : r.tx = t.tx
        · exact Or.inr (Or.inr (hno r (List.mem_append.mpr (Or.inr hr)) htx))
        · exact Or.inr (Or.inl htx)
      · exact Or.inl (List.mem_singleton.mp hr)
    rw [hsplit, foldl_disputeStep_single t d l1 (l2 ++ [t]) (pushTx acc t) h1 h2]
    have hg : ¬ (d = t ∨ d.tx ≠ t.tx) := by
      push_neg
      exact ⟨hdt, hdtx⟩
    simp only [disputeStep, if_neg hg, hdk]
    rfl

/-- Instance of the dispute-opening characterization: on an account of
client 2 whose history is the single Deposit(7) tx=1 and whose dispute
ledger is empty, a Dispute(1) puts 7 on hold, leaves total at 7, and
records the deposit in the ledger. -/
theorem open_dispute_guard_cases_instance :
    wDisp.client = wAcc.client ∧ wDisp.kind = .dispute ∧
    wAcc.add_transaction wDisp = .ok
      { client := wAcc.client,
        transactions := wAcc.transactions ++ [wDisp],
        disputed_transactions := insertTx wAcc.disputed_transactions wDisp.tx wDep,
        snapshot := { wAcc.snapshot with
          held := wAcc.snapshot.held + 7 } } :=
  ⟨rfl, rfl,
    (open_dispute_guard_cases wAcc wDisp rfl rfl).2.2.1 [] [] wDep 7 rfl rfl rfl
      rfl (by simp)⟩

/-- C6 amended: a Dispute processed while no monetary transaction with its
tx id is in the history is a permanent no-op — it records no hold, and a
Deposit with that tx id processed right after it only adjusts the total:
the held amount and the dispute ledger stay untouched, so the earlier
Dispute's hold never takes effect. -/
theorem c6_amended_early_dispute_permanent_noop (acc : Account)
    (t u : Transaction) (q : ℚ)
    (hk : t.kind = .dispute) (hc : t.client = acc.client)
    (huc : u.client = acc.client) (hutx : u.tx = t.tx)
    (huk : u.kind = .deposit q)
    (hopen : acc.get_disputed_transaction t = none)
    (hno : ∀ r ∈ acc.transactions, r.tx = t.tx → isMon r.kind = false) :
    acc.add_transaction t = .ok (pushTx acc t) ∧
    (pushTx acc t).add_transaction u = .ok
      { client := acc.client,
        transactions := (acc.transactions ++ [t]) ++ [u],
        disputed_transactions := acc.disputed_transactions,
        snapshot := { acc.snapshot with
          total := acc.snapshot.total + q } } ∧
    lookupTx acc.disputed_transactions u.tx = none := by
  refine ⟨add_transaction_dispute_noop acc t hc hk hopen hno,
    add_transaction_deposit_eq (pushTx acc t) u q huc huk, ?_⟩
  rw [hutx, ← get_disputed_eq_lookup]
  exact hopen

/-- Witness for C6's amended claim: from the fresh account of client 2,
Dispute(1) then Deposit(10) tx=1 leaves held untouched and the dispute
ledger empty; only total moves, by the deposit. -/
theorem c6_amended_witness :
    (Account.new 2).add_transaction disp1 = .ok (pushTx (Account.new 2) disp1) ∧
    (pushTx (Account.new 2) disp1).add_transaction dep10 = .ok
      { client := (Account.new 2).client,
        transactions := ((Account.new 2).transactions ++ [disp1]) ++ [dep10],
        disputed_transactions := (Account.new 2).disputed_transactions,
        snapshot := { (Account.new 2).snapshot with
          total := (Account.new 2).snapshot.total + 10 } } ∧
    lookupTx (Account.new 2).disputed_transactions dep10.tx = none :=
  c6_amended_early_dispute_permanent_noop (Account.new 2) disp1 dep10 10
    rfl rfl rfl rfl rfl rfl (by simp [Account.new])

/-- C10: client-mismatch rejection is atomic — `add_transaction` on any
account with a transaction of a different client returns the error with the
account in exactly its pre-call state (nothing pushed, nothing mutated). -/
theorem c10_client_mismatch_atomic (acc : Account) (t : Transaction)
    (h : t.client ≠ acc.client) :
    acc.add_transaction t =
      .err "Invalid transaction client for this account" acc := by
  unfold Account.add_transaction
  rw [if_pos (Ne.symm h)]

/-- Witness for C10: a withdrawal of client 999 against the fresh account
of client 2 errors out and leaves the account untouched. -/
theorem c10_witness :
    (999 : ℕ) ≠ 2 ∧
    (Account.new 2).add_transaction ⟨999, .withdraw (1101 / 100 : ℚ), 5⟩ =
      .err "Invalid transaction client for this account" (Account.new 2) :=
  ⟨by decide,
    c10_client_mismatch_atomic (Account.new 2) ⟨999, .withdraw (1101 / 100 : ℚ), 5⟩
      (by decide)⟩

/-- Re-locking an already locked account is the identity. -/
theorem setLocked_eq_self (acc : Account) (h : acc.snapshot.locked = true) :
    setLocked true acc = acc := by
  obtain ⟨c, txs, dm, s⟩ := acc
  obtain ⟨sc, st, sh, sl⟩ := s
  simp only [setLocked] at h ⊢
  simp_all

/-- The `open_dispute` scan body never reads or writes the locked flag. -/
theorem disputeStep_setLocked (b : Bool) (t r : Transaction) (a : Account) :
    disputeStep t (setLocked b a) r = setLocked b (disputeStep t a r) := by
  unfold disputeStep setLocked
  by_cases hg : r = t ∨ r.tx ≠ t.tx
  · simp [hg]
  · simp only [if_neg hg]
    cases r.kind <;> rfl

/-- The whole `open_dispute` scan never reads or writes the locked flag. -/
theorem foldl_disputeStep_setLocked (b : Bool) (t : Transaction) :
    ∀ (l : List Transaction) (a : Account),
      l.foldl (disputeStep t) (setLocked b a) =
        setLocked b (l.foldl (disputeStep t) a) := by
  intro l
  induction l with
  | nil => intro a; rfl
  | cons r l ih =>
    intro a
    rw [List.foldl_cons, List.foldl_cons, disputeStep_setLocked, ih]

/-- `open_dispute` never reads or writes the locked flag. -/
theorem open_dispute_setLocked (b : Bool) (acc : Account) (t : Transaction) :
    (setLocked b acc).open_dispute t = setLocked b (acc.open_dispute t) := by
  unfold Account.open_dispute
  have hgd : (setLocked b acc).get_disputed_transaction t =
      acc.get_disputed_transaction t := rfl
  rw [hgd]
  cases acc.get_disputed_transaction t with
  | some d => rfl
  | none => exact foldl_disputeStep_setLocked b t acc.transactions acc

/-- `Account::resolve` never reads or writes the locked flag. -/
theorem resolve_setLocked (b : Bool) (acc : Account) (d : Transaction) :
    (setLocked b acc).resolve d = mapLocked b (acc.resolve d) := by
  unfold Account.resolve mapLocked
  cases d.kind <;> rfl

/-- For every transaction kind except ChargeBack, `add_transaction` treats
the locked flag as inert data: processing commutes with overriding it. -/
theorem add_transaction_setLocked (b : Bool) (acc : Account) (t : Transaction)
    (hk : t.kind ≠ .chargeBack) :
    (setLocked b acc).add_transaction t = mapLocked b (acc.add_transaction t) := by
  unfold Account.add_transaction
  by_cases hc : acc.client ≠ t.client
  · have hc2 : (setLocked b acc).client ≠ t.client := hc
    rw [if_pos hc2, if_pos hc]
    rfl
  · have hc2 : ¬ (setLocked b acc).client ≠ t.client := hc
    rw [if_neg hc2, if_neg hc]
    cases hck : t.kind with
    | deposit q => rfl
    | withdraw q => rfl
    | dispute =>
      show TxResult.ok ((pushTx (setLocked b acc) t).open_dispute t) = _
      have hp : pushTx (setLocked b acc) t = setLocked b (pushTx acc t) := rfl
      rw [hp, open_dispute_setLocked]
      rfl
    | resolve =>
      have hgd : (pushTx (setLocked b acc) t).get_disputed_transaction t =
          (pushTx acc t).get_disputed_transaction t := rfl
      show (match (pushTx (setLocked b acc) t).get_disputed_transaction t with
        | some disp => (pushTx (setLocked b acc) t).resolve disp
        | none => TxResult.ok (pushTx (setLocked b acc) t)) =
        mapLocked b (match (pushTx acc t).get_disputed_transaction t with
        | some disp => (pushTx acc t).resolve disp
        | none => TxResult.ok (pushTx acc t))
      rw [hgd]
      cases hd : (pushTx acc t).get_disputed_transaction t with
      | none => rfl
      | some d =>
        show (pushTx (setLocked b acc) t).resolve d =
          mapLocked b ((pushTx acc t).resolve d)
        have hp : pushTx (setLocked b acc) t = setLocked b (pushTx acc t) := rfl
        rw [hp]
        exact resolve_setLocked b (pushTx acc t) d
    | chargeBack => exact absurd hck hk

/-- C9: a locked account keeps processing every kind except ChargeBack —
on a locked account a ChargeBack is appended to the history but its whole
effect is skipped, while for any other kind processing is exactly the
unlocked processing with the locked flag re-imposed on the result (the
flag is never read): Deposits, Withdraws, Disputes and Resolves behave as
usual. -/
theorem c9_locked_account_processing (acc : Account) (t : Transaction)
    (hc : t.client = acc.client) (hl : acc.snapshot.locked = true) :
    (t.kind = .chargeBack → acc.add_transaction t = .ok (pushTx acc t)) ∧
    (t.kind ≠ .chargeBack →
      acc.add_transaction t =
        mapLocked true ((setLocked false acc).add_transaction t)) := by
  constructor
  · intro hk
    have hne : ¬ acc.client ≠ t.client := by simp [hc]
    simp only [Account.add_transaction, hk, if_neg hne]
    have hlp : (pushTx acc t).snapshot.locked = true := hl
    rw [if_pos hlp]
  · intro hk
    have h1 : setLocked true (setLocked false acc) = setLocked true acc := rfl
    have h2 : setLocked true acc = acc := setLocked_eq_self acc hl
    calc acc.add_transaction t
        = (setLocked true (setLocked false acc)).add_transaction t := by
          rw [h1, h2]
      _ = mapLocked true ((setLocked false acc).add_transaction t) :=
          add_transaction_setLocked true (setLocked false acc) t hk

/-- Witness for C9: the reachable locked account (after Deposit(10),
Dispute(1), ChargeBack(1)) still processes a fresh Deposit(5) exactly as
its unlocked twin would, with the locked flag re-imposed. -/
theorem c9_witness :
    tDep5.client = lockedAcc.client ∧ lockedAcc.snapshot.locked = true ∧
    lockedAcc.add_transaction tDep5 =
      mapLocked true ((setLocked false lockedAcc).add_transaction tDep5) :=
  ⟨by decide, by decide,
    (c9_locked_account_processing lockedAcc tDep5 (by decide) (by decide)).2
      (by decide)⟩

/-- An `i32` increment inside the representable range does not wrap. -/
theorem i32wrap_small (z : ℤ) (h0 : -2 ^ 31 ≤ z) (h1 : z < 2 ^ 31) :
    i32wrap z = z := by
  unfold i32wrap
  have ha : 0 ≤ z + 2 ^ 31 := by linarith
  have hb : z + 2 ^ 31 < 2 ^ 32 := by
    have h2 : (2 : ℤ) ^ 32 = 2 ^ 31 + 2 ^ 31 := by norm_num
    linarith
  rw [Int.emod_eq_of_lt ha hb]
  ring

/-- The `as usize` cast of a nonnegative in-range cursor is its value. -/
theorem usizeOfI32_coe (k : ℕ) (h : k < 2 ^ 64) :
    usizeOfI32 (k : ℤ) = k := by
  unfold usizeOfI32
  rw [Int.emod_eq_of_lt (by positivity) (by exact_mod_cast h)]
  simp

/-- Iterating `get_snapshot_line` from cursor position `k` walks the
account vector once, emitting the snapshot of every remaining account in
order, and parks the cursor at the end. -/
theorem emit_from (l : List Account) (hlen : l.length < 2 ^ 31) :
    ∀ (n k : ℕ), k + n = l.length →
      emit { accounts := l, pos := (k : ℤ) } n =
        ((l.drop k).map Account.take_snapshot,
         { accounts := l, pos := (l.length : ℤ) }) := by
  intro n
  induction n with
  | zero =>
    intro k hk
    have hkl : k = l.length := by omega
    subst hkl
    simp [emit, List.drop_length]
  | succ n ih =>
    intro k hk
    have hklt : k < l.length := by omega
    have hlen2 : l.length < 2147483648 := by
      norm_num at hlen
      exact hlen
    have hk64 : k < 2 ^ 64 := by
      norm_num
      omega
    have hget : l.get? (usizeOfI32 (k : ℤ)) = some (l.get ⟨k, hklt⟩) := by
      rw [usizeOfI32_coe k hk64, List.get?_eq_getElem?,
        List.getElem?_eq_getElem hklt]
      rfl
    have hlow : -2 ^ 31 ≤ (k : ℤ) + 1 := by
      norm_num
      omega
    have hhigh : (k : ℤ) + 1 < 2 ^ 31 := by
      norm_num
      omega
    have hwrap : i32wrap ((k : ℤ) + 1) = ((k + 1 : ℕ) : ℤ) := by
      rw [i32wrap_small ((k : ℤ) + 1) hlow hhigh]
      push_cast
      ring
    show emit { accounts := l, pos := (k : ℤ) } (n + 1) = _
    unfold emit Portfolio.get_snapshot_line
    rw [hget]
    show ((l.get ⟨k, hklt⟩).take_snapshot ::
        (emit { accounts := l, pos := i32wrap ((k : ℤ) + 1) } n).1,
      (emit { accounts := l, pos := i32wrap ((k : ℤ) + 1) } n).2) = _
    rw [hwrap, ih (k + 1) (by omega)]
    rw [List.drop_eq_getElem_cons hklt, List.map_cons]
    rfl

/-- A successful ledger lookup returns a stored value. -/
theorem lookupTx_mem (m : List (ℕ × Transaction)) (k : ℕ) (v : Transaction)
    (h : lookupTx m k = some v) : ∃ k2, (k2, v) ∈ m := by
  unfold lookupTx at h
  cases hf : m.find? (fun pr => pr.1 == k) with
  | none => rw [hf] at h; cases h
  | some pr =>
    rw [hf] at h
    injection h with h2
    subst h2
    exact ⟨pr.1, by simpa using List.mem_of_find?_eq_some hf⟩

/-- The `open_dispute` scan body only ever inserts monetary transactions
into the dispute ledger. -/
theorem monmap_disputeStep (t r : Transaction) (a : Account)
    (h : MonMap a) : MonMap (disputeStep t a r) := by
  unfold disputeStep
  by_cases hg : r = t ∨ r.tx ≠ t.tx
  · simpa [hg] using h
  · simp only [if_neg hg]
    cases hk : r.kind with
    | deposit q =>
      intro pr hpr
      simp only [insertTx, List.mem_cons] at hpr
      rcases hpr with h1 | h1
      · rw [h1]
        simp [isMon, hk]
      · exact h pr h1
    | withdraw q =>
      intro pr hpr
      simp only [insertTx, List.mem_cons] at hpr
      rcases hpr with h1 | h1
      · rw [h1]
        simp [isMon, hk]
      · exact h pr h1
    | dispute => exact h
    | resolve => exact h
    | chargeBack => exact h

/-- The whole `open_dispute` scan preserves the monetary-ledger invariant. -/
theorem monmap_foldl (t : Transaction) :
    ∀ (l : List Transaction) (a : Account),
      MonMap a → MonMap (l.foldl (disputeStep t) a) := by
  intro l
  induction l with
  | nil => intro a h; exact h
  | cons r l ih =>
    intro a h
    rw [List.foldl_cons]
    exact ih (disputeStep t a r) (monmap_disputeStep t r a h)

/-- `open_dispute` preserves the monetary-ledger invariant. -/
theorem monmap_open_dispute (acc : Account) (t : Transaction)
    (h : MonMap acc) : MonMap (acc.open_dispute t) := by
  unfold Account.open_dispute
  cases acc.get_disputed_transaction t with
  | some d => exact h
  | none => exact monmap_foldl t acc.transactions acc h

/-- The `open_dispute` scan body never changes the account's client. -/
theorem client_disputeStep (t r : Transaction) (a : Account) :
    (disputeStep t a r).client = a.client := by
  unfold disputeStep
  by_cases hg : r = t ∨ r.tx ≠ t.tx
  · simp [hg]
  · simp only [if_neg hg]
    cases r.kind <;> rfl

/-- The whole `open_dispute` scan never changes the account's client. -/
theorem client_foldl (t : Transaction) :
    ∀ (l : List Transaction) (a : Account),
      (l.foldl (disputeStep t) a).client = a.client := by
  intro l
  induction l with
  | nil => intro a; rfl
  | cons r l ih =>
    intro a
    rw [List.foldl_cons, ih (disputeStep t a r), client_disputeStep]

/-- `open_dispute` never changes the account's client. -/
theorem client_open_dispute (acc : Account) (t : Transaction) :
    (acc.open_dispute t).client = acc.client := by
  unfold Account.open_dispute
  cases acc.get_disputed_transaction t with
  | some d => rfl
  | none => exact client_foldl t acc.transactions acc

/-- On a matching client and a monetary dispute ledger, `add_transaction`
always succeeds (no `Err`, no panic), preserves the ledger invariant, and
keeps the account's client. -/
theorem add_transaction_char (acc : Account) (t : Transaction)
    (hm : MonMap acc) (hc : acc.client = t.client) :
    ∃ a2, acc.add_transaction t = .ok a2 ∧ MonMap a2 ∧
      a2.client = acc.client := by
  have hne : ¬ acc.client ≠ t.client := by simp [hc]
  unfold Account.add_transaction
  rw [if_neg hne]
  cases hk : t.kind with
  | deposit q => exact ⟨_, rfl, hm, rfl⟩
  | withdraw q => exact ⟨_, rfl, hm, rfl⟩
  | dispute =>
    exact ⟨_, rfl, monmap_open_dispute (pushTx acc t) t hm,
      client_open_dispute (pushTx acc t) t⟩
  | chargeBack =>
    show ∃ a2,
      (if (pushTx acc t).snapshot.locked = true then TxResult.ok (pushTx acc t)
       else match (pushTx acc t).get_disputed_transaction t with
        | some disp => (pushTx acc t).apply_changeback disp
        | none => TxResult.ok (pushTx acc t)) = TxResult.ok a2 ∧
      MonMap a2 ∧ a2.client = acc.client
    by_cases hl : (pushTx acc t).snapshot.locked = true
    · rw [if_pos hl]
      exact ⟨_, rfl, hm, rfl⟩
    · rw [if_neg hl]
      cases hgd : (pushTx acc t).get_disputed_transaction t with
      | none => exact ⟨_, rfl, hm, rfl⟩
      | some d =>
        have hdm : isMon d.kind = true := by
          have hl2 : lookupTx acc.disputed_transactions t.tx = some d :=
            (get_disputed_eq_lookup (pushTx acc t) t).symm.trans hgd
          obtain ⟨k2, hk2⟩ := lookupTx_mem _ _ _ hl2
          exact hm (k2, d) hk2
        show ∃ a2, (pushTx acc t).apply_changeback d = TxResult.ok a2 ∧
          MonMap a2 ∧ a2.client = acc.client
        unfold Account.apply_changeback
        cases hdk : d.kind with
        | deposit q => exact ⟨_, rfl, hm, rfl⟩
        | withdraw q => exact ⟨_, rfl, hm, rfl⟩
        | dispute => rw [hdk] at hdm; simp [isMon] at hdm
        | resolve => rw [hdk] at hdm; simp [isMon] at hdm
        | chargeBack => rw [hdk] at hdm; simp [isMon] at hdm
  | resolve =>
    show ∃ a2,
      (match (pushTx acc t).get_disputed_transaction t with
        | some disp => (pushTx acc t).resolve disp
        | none => TxResult.ok (pushTx acc t)) = TxResult.ok a2 ∧
      MonMap a2 ∧ a2.client = acc.client
    cases hgd : (pushTx acc t).get_disputed_transaction t with
    | none => exact ⟨_, rfl, hm, rfl⟩
    | some d =>
      have hdm : isMon d.kind = true := by
        have hl2 : lookupTx acc.disputed_transactions t.tx = some d :=
          (get_disputed_eq_lookup (pushTx acc t) t).symm.trans hgd
        obtain ⟨k2, hk2⟩ := lookupTx_mem _ _ _ hl2
        exact hm (k2, d) hk2
      show ∃ a2, (pushTx acc t).resolve d = TxResult.ok a2 ∧
        MonMap a2 ∧ a2.client = acc.client
      unfold Account.resolve
      cases hdk : d.kind with
      | deposit q => exact ⟨_, rfl, hm, rfl⟩
      | withdraw q => exact ⟨_, rfl, hm, rfl⟩
      | dispute => rw [hdk] at hdm; simp [isMon] at hdm
      | resolve => rw [hdk] at hdm; simp [isMon] at hdm
      | chargeBack => rw [hdk] at hdm; simp [isMon] at hdm

/-- Routing one transaction through the account vector always succeeds
when every stored ledger is monetary: the first account with a matching
client absorbs the transaction in place, otherwise a fresh account is
appended, so the client list either stays put or grows by the new client
at the end. -/
theorem addToAccounts_char :
    ∀ (l : List Account) (t : Transaction), (∀ a ∈ l, MonMap a) →
      ∃ l2, addToAccounts l t = .ok l2 ∧ (∀ a ∈ l2, MonMap a) ∧
        l2.map Account.client =
          (if t.client ∈ l.map Account.client then l.map Account.client
           else l.map Account.client ++ [t.client]) := by
  intro l
  induction l with
  | nil =>
    intro t h
    have hm0 : MonMap (Account.new t.client) := by
      intro pr hpr
      cases hpr
    obtain ⟨a2, ha, hm2, hcl⟩ := add_transaction_char (Account.new t.client) t hm0 rfl
    refine ⟨[a2], ?_, ?_, ?_⟩
    · unfold addToAccounts
      rw [ha]
    · intro x hx
      rw [List.mem_singleton.mp hx]
      exact hm2
    · simp [hcl, Account.new]
  | cons a l ih =>
    intro t h
    by_cases hcl : a.client = t.client
    · obtain ⟨a2, ha, hm2, hc2⟩ := add_transaction_char a t (h a (by simp)) hcl
      refine ⟨a2 :: l, ?_, ?_, ?_⟩
      · unfold addToAccounts
        rw [if_pos hcl, ha]
      · intro x hx
        rcases List.mem_cons.mp hx with h1 | h1
        · rw [h1]
          exact hm2
        · exact h x (by simp [h1])
      · have hmem : t.client ∈ (a :: l).map Account.client := by
          simp [← hcl]
        rw [if_pos hmem]
        simp [hc2, hcl]
    · obtain ⟨l2, hl2, hm2, hmap⟩ := ih t (fun x hx => h x (by simp [hx]))
      refine ⟨a :: l2, ?_, ?_, ?_⟩
      · unfold addToAccounts
        rw [if_neg hcl, hl2]
      · intro x hx
        rcases List.mem_cons.mp hx with h1 | h1
        · rw [h1]
          exact h a (by simp)
        · exact hm2 x h1
      · by_cases hm3 : t.client ∈ l.map Account.client
        · have hmem : t.client ∈ (a :: l).map Account.client := by simp [hm3]
          rw [if_pos hmem, List.map_cons, hmap, if_pos hm3, List.map_cons]
        · have hmem : t.client ∉ (a :: l).map Account.client := by
            simp only [List.map_cons, List.mem_cons]
            push_neg
            exact ⟨fun he => hcl he.symm, hm3⟩
          rw [if_neg hmem, List.map_cons, hmap, if_neg hm3, List.map_cons,
            List.cons_append]

/-- One `Portfolio::add_transaction` step always succeeds under the ledger
invariant, leaves the cursor alone, and updates the first-seen client list
as described. -/
theorem portStep_char (p : Portfolio) (t : Transaction)
    (h : ∀ a ∈ p.accounts, MonMap a) :
    (∀ a ∈ (portStep p t).accounts, MonMap a) ∧
    (portStep p t).accounts.map Account.client =
      (if t.client ∈ p.accounts.map Account.client then
        p.accounts.map Account.client
       else p.accounts.map Account.client ++ [t.client]) ∧
    (portStep p t).pos = p.pos := by
  obtain ⟨l2, hl2, hm2, hmap⟩ := addToAccounts_char p.accounts t h
  unfold portStep Portfolio.add_transaction
  rw [hl2]
  exact ⟨hm2, hmap, rfl⟩

/-- Feeding a stream into a portfolio preserves the ledger invariant,
never moves the cursor, and accumulates clients in first-seen order. -/
theorem portfolio_fold_inv :
    ∀ (ts : List Transaction) (p : Portfolio),
      (∀ a ∈ p.accounts, MonMap a) →
      (∀ a ∈ (ts.foldl portStep p).accounts, MonMap a) ∧
      (ts.foldl portStep p).accounts.map Account.client =
        ts.foldl (fun cl t => if t.client ∈ cl then cl else cl ++ [t.client])
          (p.accounts.map Account.client) ∧
      (ts.foldl portStep p).pos = p.pos := by
  intro ts
  induction ts with
  | nil => intro p h; exact ⟨h, rfl, rfl⟩
  | cons t ts ih =>
    intro p h
    obtain ⟨h1, h2, h3⟩ := portStep_char p t h
    obtain ⟨g1, g2, g3⟩ := ih (portStep p t) h1
    refine ⟨g1, ?_, g3.trans h3⟩
    rw [List.foldl_cons, List.foldl_cons, g2, h2]

/-- The first-seen accumulation never introduces a duplicate client. -/
theorem foldl_seen_nodup :
    ∀ (ts : List Transaction) (cl : List ℕ), cl.Nodup →
      (ts.foldl (fun cl t => if t.client ∈ cl then cl else cl ++ [t.client])
        cl).Nodup := by
  intro ts
  induction ts with
  | nil => intro cl h; exact h
  | cons t ts ih =>
    intro cl h
    rw [List.foldl_cons]
    by_cases hm : t.client ∈ cl
    · rw [if_pos hm]
      exact ih cl h
    · rw [if_neg hm]
      exact ih (cl ++ [t.client]) (by simp [List.nodup_append, h, hm])

/-- C8 amended: after feeding any stream into a fresh portfolio, the
account vector holds exactly one account per known client in first-seen
order (no duplicates); iterating `get_snapshot_line` from the initial
cursor emits exactly one snapshot per account, in that order, and parks
the cursor past the end, where every further call returns `none` and
leaves the portfolio unchanged — a finite, single-pass emission. -/
theorem c8_amended_emission (ts : List Transaction)
    (h31 : (portfolioRun ts).accounts.length < 2 ^ 31) :
    (portfolioRun ts).accounts.map Account.client = firstSeen ts ∧
    ((portfolioRun ts).accounts.map Account.client).Nodup ∧
    emit (portfolioRun ts) (portfolioRun ts).accounts.length =
      ((portfolioRun ts).accounts.map Account.take_snapshot,
       { accounts := (portfolioRun ts).accounts,
         pos := ((portfolioRun ts).accounts.length : ℤ) }) ∧
    Portfolio.get_snapshot_line
        { accounts := (portfolioRun ts).accounts,
          pos := ((portfolioRun ts).accounts.length : ℤ) } =
      (none,
       { accounts := (portfolioRun ts).accounts,
         pos := ((portfolioRun ts).accounts.length : ℤ) }) := by
  obtain ⟨hm, hmap, hpos⟩ := portfolio_fold_inv ts Portfolio.new
    (by intro a ha; cases ha)
  have hfold : portfolioRun ts = ts.foldl portStep Portfolio.new := rfl
  have hfs : (portfolioRun ts).accounts.map Account.client = firstSeen ts := by
    rw [hfold, hmap]
    rfl
  refine ⟨hfs, ?_, ?_, ?_⟩
  · rw [hfs]
    exact foldl_seen_nodup ts [] List.nodup_nil
  · have hpz : (portfolioRun ts).pos = ((0 : ℕ) : ℤ) := by
      rw [hfold, hpos]
      rfl
    have hpe : portfolioRun ts =
        { accounts := (portfolioRun ts).accounts,
          pos := ((0 : ℕ) : ℤ) } := by
      rw [← hpz]
    conv_lhs => rw [hpe]
    have := emit_from (portfolioRun ts).accounts h31
      (portfolioRun ts).accounts.length 0 (by omega)
    rw [this, List.drop_zero]
  · have hlen64 : (portfolioRun ts).accounts.length < 2 ^ 64 := by
      have h2 : (2 : ℕ) ^ 31 < 2 ^ 64 := by norm_num
      omega
    unfold Portfolio.get_snapshot_line
    have hnone : (portfolioRun ts).accounts.get?
        (usizeOfI32 (((portfolioRun ts).accounts.length : ℕ) : ℤ)) = none := by
      rw [usizeOfI32_coe _ hlen64, List.get?_eq_getElem?]
      exact List.getElem?_eq_none (le_refl _)
    rw [hnone]

/-- Witness for C8's amended claim: the stream with the single Deposit(5)
of client 1 yields one account for client 1, whose snapshot is emitted
exactly once before the cursor parks at the end. -/
theorem c8_amended_witness :
    (portfolioRun [depP]).accounts.map Account.client = firstSeen [depP] ∧
    ((portfolioRun [depP]).accounts.map Account.client).Nodup ∧
    emit (portfolioRun [depP]) (portfolioRun [depP]).accounts.length =
      ((portfolioRun [depP]).accounts.map Account.take_snapshot,
       { accounts := (portfolioRun [depP]).accounts,
         pos := ((portfolioRun [depP]).accounts.length : ℤ) }) ∧
    Portfolio.get_snapshot_line
        { accounts := (portfolioRun [depP]).accounts,
          pos := ((portfolioRun [depP]).accounts.length : ℤ) } =
      (none,
       { accounts := (portfolioRun [depP]).accounts,
         pos := ((portfolioRun [depP]).accounts.length : ℤ) }) :=
  c8_amended_emission [depP] (by decide)

/-- C5: a resolved dispute blocks re-opening — after Deposit(10) tx=1,
Dispute(1), Resolve(1) the dispute on tx 1 is closed (held is back to 0),
a prior Deposit(10) with tx 1 is in the history, and no dispute is open,
yet a second Dispute(1) is a pure history append: the stale ledger entry
(never removed by the Resolve) makes the guard fire, so held stays 0
instead of the claimed held += 10. -/
theorem c5_redispute_after_resolve_noop :
    (runTransactions 2 [dep10, disp1, res1]).snapshot.held = 0 ∧
    (runTransactions 2 [dep10, disp1, res1]).add_transaction disp1 =
      .ok (pushTx (runTransactions 2 [dep10, disp1, res1]) disp1) ∧
    (runTransactions 2 [dep10, disp1, res1, disp1]).snapshot.held = 0 := by
  simp +decide only [runTransactions, txStep, Account.add_transaction, pushTx,
    Account.open_dispute, disputeStep, Account.get_disputed_transaction,
    lookupTx, insertTx, Account.resolve, Account.apply_changeback,
    Account.new, Snapshot.new, dep10, disp1, res1, cb1, dep62, wd30, disp2,
    cb2, List.foldl, List.find?]
  norm_num
